import Mathlib

/-!
Verification of the writers-corner scripts.

Shallow embedding of `src/scripts/excel_to_markdown.py` (chapter aggregation
and markdown rendering) and `src/scripts/common_words.py` (word-frequency CSV
aggregation).  Python strings are modelled as Lean `String`; the pandas
DataFrame is modelled as a list of row records; the insertion-ordered Python
dict of chapters is modelled as an association list; filesystem writes are
modelled as explicit state, with an oracle saying which writes raise.
-/

/-- Shallow embedding of one DataFrame row as consumed by `parse_scenes`
(`excel_to_markdown.py` lines 97-107): the fields read from the columns
Week, Arc, Chapter, Location, Uniform, Time, Weather, Day, Description,
POV, Temperature.  Cell values are modelled as strings. -/
structure Row where
  week : String
  arc : String
  chapter : String
  location : String
  uniform : String
  time : String
  weather : String
  day : String
  description : String
  pov : String
  temperature : String
deriving DecidableEq, Repr

/-- Shallow embedding of the per-chapter accumulator dict created at
`excel_to_markdown.py` line 110 (plus the `temperature` key added at
line 122).  Heterogeneous dict values become typed fields. -/
structure ChapterData where
  scenes : List Nat
  settings : List String
  scene_counter : Nat
  day : List String
  POV : String
  description : String
  time : List String
  weather : List String
  descriptions : List String
  uniform : List String
  arc : String
  week : List String
  temperature : String
deriving DecidableEq, Repr

/-- Initial chapter accumulator, from the dict literal at line 110 of
`excel_to_markdown.py`.  The Python literal has `arc: 1` (an int) and no
`temperature` key; both are overwritten in the same loop iteration that
creates the entry, so their initial values are unobservable. -/
def initChapter : ChapterData :=
  { scenes := [], settings := [], scene_counter := 1, day := [], POV := "",
    description := "", time := [], weather := [], descriptions := [],
    uniform := [], arc := "", week := [], temperature := "" }

/-- Loop-body update of one chapter accumulator for one row
(`excel_to_markdown.py` lines 112-123). -/
def updateChapter (cd : ChapterData) (row : Row) : ChapterData :=
  { scenes := cd.scenes ++ [cd.scene_counter]
    arc := row.arc
    scene_counter := cd.scene_counter + 1
    day := cd.day ++ [row.day]
    settings := cd.settings ++ [row.location]
    uniform := cd.uniform ++ [row.uniform]
    weather := cd.weather ++ [row.weather]
    time := cd.time ++ [row.time]
    descriptions := cd.descriptions ++ [row.description]
    POV := row.pov
    temperature := row.temperature
    week := cd.week ++ [row.week]
    description := cd.description }

/-- The `chapters` dict, keyed by the Chapter cell, as an insertion-ordered
association list (Python dicts preserve insertion order). -/
abbrev ChMap := List (String × ChapterData)

/-- Dict lookup `chapters[chapter]` / membership test `chapter in chapters`. -/
def lookupChapter : ChMap → String → Option ChapterData
  | [], _ => none
  | (k, v) :: rest, key => if key = k then some v else lookupChapter rest key

/-- Dict entry replacement `chapters[chapter] = ...` for an existing key. -/
def setChapter : ChMap → String → ChapterData → ChMap
  | [], _, _ => []
  | (k, v) :: rest, key, newv =>
    if k = key then (k, newv) :: setChapter rest key newv
    else (k, v) :: setChapter rest key newv

/-- One iteration of the row loop in `parse_scenes` (lines 96-123): create
the chapter entry if absent (appended at the end, as dict insertion does),
then apply the per-row update. -/
def stepRow (chapters : ChMap) (row : Row) : ChMap :=
  match lookupChapter chapters row.chapter with
  | some cd => setChapter chapters row.chapter (updateChapter cd row)
  | none => chapters ++ [(row.chapter, updateChapter initChapter row)]

/-- Shallow embedding of `parse_scenes` (`excel_to_markdown.py` lines 90-128)
on a well-formed DataFrame: a single left fold of the row loop over the rows
in input order. -/
def parse_scenes (rows : List Row) : ChMap :=
  rows.foldl stepRow []

/-- Boolean prefix test on character lists (used to model Python
`str.split` occurrence search). -/
def leadsWith : List Char → List Char → Bool
  | [], _ => true
  | _ :: _, [] => false
  | a :: as, b :: bs => a = b && leadsWith as bs

/-- Substring occurrence test: `occurs pat s` is true when `pat` occurs as a
contiguous substring of `s` (the condition under which Python `s.split(pat)`
produces more than one part). -/
def occurs (pat : List Char) : List Char → Bool
  | [] => leadsWith pat []
  | c :: rest => leadsWith pat (c :: rest) || occurs pat rest

/-- Worker for Python `str.split(sep)` with a non-empty separator: scan left
to right, emitting the accumulated piece at each non-overlapping leftmost
occurrence of `sep`.  `fuel` bounds the recursion; `fuel = length of the
input` always suffices because every step consumes at least one character. -/
def splitGo (sep : List Char) : Nat → List Char → List Char → List (List Char)
  | _, [], cur => [cur.reverse]
  | 0, s, cur => [cur.reverse ++ s]
  | fuel + 1, c :: rest, cur =>
    if leadsWith sep (c :: rest) && !sep.isEmpty then
      cur.reverse :: splitGo sep fuel (List.drop sep.length (c :: rest)) []
    else
      splitGo sep fuel rest (c :: cur)

/-- Python `s.split(sep)` for a non-empty separator string, as used at
`excel_to_markdown.py` lines 178, 181, 185.  Always returns at least one
part; keeps empty parts, exactly like Python `str.split` with an explicit
separator. -/
def pySplit (s sep : String) : List String :=
  (splitGo sep.data s.data.length s.data []).map String.mk

/-- Rendering of one top-level location segment (`excel_to_markdown.py`
lines 180-188): split on `" - "`; the head is a first-level bullet; each
further part is split on `", "` into second-level bullets. -/
def renderSettingPart (subpart : String) : String :=
  match pySplit subpart " - " with
  | [] => ""
  | major :: rest =>
    " - " ++ major ++ "\n" ++
      String.join (rest.map (fun part =>
        String.join ((pySplit part ", ").map (fun j => "     - " ++ j ++ "\n"))))

/-- Rendering of the setting block of one scene (`excel_to_markdown.py`
lines 178-188): split the location on `". "` into top-level segments and
render each. -/
def renderSetting (location : String) : String :=
  String.join ((pySplit location ". ").map renderSettingPart)

/-- Fixed labelled lines of one scene section after the heading
(`excel_to_markdown.py` lines 167-190), ending with the setting block and
the blank line emitted after it. -/
def sceneDetails (pov tempv timev dayv weekv weatherv uniformv descv settingv : String) : String :=
  " - POV: " ++ pov ++ "\n" ++
  " - Date and Time: " ++ timev ++ "\n" ++
  " - Day: " ++ dayv ++ "\n" ++
  " - Week: " ++ weekv ++ "\n" ++
  " - Temperature: " ++ tempv ++ "\n" ++
  " - Weather: " ++ weatherv ++ "\n" ++
  " - Uniform: " ++ uniformv ++ "\n\n" ++
  " - Description: " ++ descv ++ "\n\n" ++
  " #### Setting:\n" ++
  renderSetting settingv ++ "\n"

/-- One full scene section (`excel_to_markdown.py` lines 166-190): the
`### Scene n` heading followed by the labelled detail lines. -/
def sceneText (pov tempv : String) (num : Nat)
    (timev dayv weekv weatherv uniformv descv settingv : String) : String :=
  "### Scene " ++ Nat.repr num ++ "\n\n" ++
    sceneDetails pov tempv timev dayv weekv weatherv uniformv descv settingv

/-- Scene section at loop index `i` of the scene loop (lines 163-190).
Python list indexing raises IndexError when out of range; that is modelled
by returning `none`, which aborts the enclosing try block. -/
def renderSceneAt (cd : ChapterData) (i : Nat) : Option String :=
  match cd.time.get? i, cd.day.get? i, cd.week.get? i, cd.weather.get? i,
        cd.uniform.get? i, cd.descriptions.get? i, cd.settings.get? i with
  | some tv, some dv, some wv, some wev, some uv, some dev, some sv =>
    some (sceneText cd.POV cd.temperature (i + 1) tv dv wv wev uv dev sv)
  | _, _, _, _, _, _, _ => none

/-- Accumulated scene sections for loop indices `0..n-1`, in order; `none`
when any index raises. -/
def renderBlocks (cd : ChapterData) : Nat → Option (List String)
  | 0 => some []
  | n + 1 =>
    match renderBlocks cd n, renderSceneAt cd n with
    | some bs, some b => some (bs ++ [b])
    | _, _ => none

/-- Body of the scene loop `for i in range(len(scenes))`
(`excel_to_markdown.py` lines 163-190): concatenation of all scene
sections. -/
def renderScenes (cd : ChapterData) : Option String :=
  match renderBlocks cd cd.scenes.length with
  | some bs => some (String.join bs)
  | none => none

/-- Shallow embedding of `add_metadata` (`excel_to_markdown.py` lines
199-208).  The wall-clock timestamp `datetime.now().strftime(...)` is a
nondeterministic input and is passed in as `now`; `os.path.basename(__file__)`
is the constant `excel_to_markdown.py`. -/
def add_metadata (markdown_content : String) (arc pov tags now : String) : String :=
  markdown_content ++ "---\n" ++ "created: " ++ now ++ "\n" ++
    "generated_by: excel_to_markdown.py\n" ++ "tags: " ++ tags ++ "\n" ++
    "POV: " ++ pov ++ "\n" ++ "Arc: " ++ arc ++ "\n" ++ "---\n\n"

/-- Document content produced for one chapter by the body of the chapter
loop in `generate_markdown_content` (`excel_to_markdown.py` lines 140-190):
optional metadata header, chapter heading, `## Scenes` heading, then all
scene sections; `none` when the scene loop raises. -/
def generateChapterContent (key : String) (cd : ChapterData) (tags : List String)
    (now : String) (am : Bool) : Option String :=
  let meta := if am then add_metadata "" cd.arc cd.POV (String.intercalate ", " tags) now else ""
  match renderScenes cd with
  | some body => some (meta ++ "# Chapter " ++ key ++ "\n" ++ "## Scenes\n" ++ body)
  | none => none

/-- Filesystem state touched by `write_markdown`: the set of existing
directories and the written files (path, content), in creation order. -/
structure FS where
  dirs : List String
  files : List (String × String)
deriving DecidableEq, Repr

/-- Shallow embedding of `write_markdown` (`excel_to_markdown.py` lines
210-222): create the output directory when absent, then attempt the write;
`writeFails` is the oracle for the exception raised by `open`/`write`, which
the function catches and logs, leaving the filesystem unchanged. -/
def write_markdown (writeFails : String → Bool) (file_path output_dir content : String)
    (fs : FS) : FS :=
  let fs1 := if output_dir ∈ fs.dirs then fs else { fs with dirs := fs.dirs ++ [output_dir] }
  if writeFails file_path then fs1
  else { fs1 with files := fs1.files ++ [("./" ++ output_dir ++ "/" ++ file_path ++ ".md", content)] }

/-- Chapter loop of `generate_markdown_content` (lines 140-194).  The whole
loop sits in one try block, so a raised exception (a `none` chapter content)
aborts all remaining chapters; a caught write failure does not.  Returns the
final filesystem together with the list of `write_markdown` calls made. -/
def generateLoop (writeFails : String → Bool) (tags : List String)
    (output_dir now : String) (am : Bool) : ChMap → FS → FS × List String
  | [], fs => (fs, [])
  | (key, cd) :: rest, fs =>
    match generateChapterContent key cd tags now am with
    | none => (fs, [])
    | some content =>
      let fs1 := write_markdown writeFails ("Chapter " ++ key) output_dir content fs
      let next := generateLoop writeFails tags output_dir now am rest fs1
      (next.1, ("Chapter " ++ key) :: next.2)

/-- Shallow embedding of `generate_markdown_content`
(`excel_to_markdown.py` lines 133-197). -/
def generate_markdown_content (writeFails : String → Bool) (chapters : ChMap)
    (tags : List String) (output_dir now : String) (am : Bool) (fs : FS) : FS × List String :=
  generateLoop writeFails tags output_dir now am chapters fs

/-- Row of the DataFrame before field access: each column access
`row["..."]` (lines 97-107) can raise (missing column / malformed row),
modelled by `Option` fields. -/
structure RawRow where
  week : Option String
  arc : Option String
  chapter : Option String
  location : Option String
  uniform : Option String
  time : Option String
  weather : Option String
  day : Option String
  description : Option String
  pov : Option String
  temperature : Option String
deriving DecidableEq, Repr

/-- The eleven field accesses of one loop iteration of `parse_scenes`
(lines 97-107), in source order; `none` models the raised exception. -/
def readRow? (r : RawRow) : Option Row :=
  match r.week, r.arc, r.chapter, r.location, r.uniform, r.time, r.weather,
        r.day, r.description, r.pov, r.temperature with
  | some w, some a, some c, some l, some u, some t, some we, some d, some de, some p, some te =>
    some { week := w, arc := a, chapter := c, location := l, uniform := u,
           time := t, weather := we, day := d, description := de, pov := p,
           temperature := te }
  | _, _, _, _, _, _, _, _, _, _, _ => none

/-- Row loop of `parse_scenes` over possibly-malformed rows: the first
raised exception escapes the loop into the except clause (lines 129-131),
making `parse_scenes` return `None`. -/
def parseRaw : List RawRow → ChMap → Option ChMap
  | [], ch => some ch
  | r :: rest, ch =>
    match readRow? r with
    | none => none
    | some row => parseRaw rest (stepRow ch row)

/-- Shallow embedding of `parse_scenes` on raw rows, including its
swallow-and-return-None exception handling (lines 94-131). -/
def parse_scenes_raw (rows : List RawRow) : Option ChMap :=
  parseRaw rows []

/-- Pipeline of `main` (`excel_to_markdown.py` lines 269-275): parse, then
generate.  When `parse_scenes` returned `None`, `generate_markdown_content`
raises `TypeError` at `len(chapters)` (line 136) before entering its try
block, so the run dies with no directory created, no file written and no
`write_markdown` call made. -/
def runPipeline (writeFails : String → Bool) (rows : List RawRow) (tags : List String)
    (output_dir now : String) (am : Bool) (fs : FS) : FS × List String :=
  match parse_scenes_raw rows with
  | none => (fs, [])
  | some chapters => generate_markdown_content writeFails chapters tags output_dir now am fs

/-- Decimal digit value of a character. -/
def digitVal (c : Char) : Nat := c.toNat - 48

/-- Digits of a Python int literal after the first digit: digits with single
underscores allowed only between digits (Python 3 `int()` grammar). -/
def digitsCore : List Char → Nat → Option Nat
  | [], acc => some acc
  | c :: rest, acc =>
    if c.isDigit then digitsCore rest (acc * 10 + digitVal c)
    else if c = Char.ofNat 95 then
      match rest with
      | [] => none
      | c2 :: rest2 =>
        if c2.isDigit then digitsCore rest2 (acc * 10 + digitVal c2) else none
    else none

/-- Unsigned decimal parse of a non-empty digit string with Python underscore
rules; `none` on the empty string or any ill-placed character. -/
def digits? : List Char → Option Nat
  | [] => none
  | c :: rest => if c.isDigit then digitsCore rest (digitVal c) else none

/-- Whitespace stripping done by Python `int(str)` before parsing. -/
def pyStrip (cs : List Char) : List Char :=
  ((cs.dropWhile Char.isWhitespace).reverse.dropWhile Char.isWhitespace).reverse

/-- Model of Python `int(s)` as used at `common_words.py` line 20: strip
whitespace, optional sign, then decimal digits with underscore rules;
`none` models the raised `ValueError`. -/
def pyInt? (s : String) : Option Int :=
  match pyStrip s.data with
  | '+' :: rest => (digits? rest).map (fun n => (n : Int))
  | '-' :: rest => (digits? rest).map (fun n => -(n : Int))
  | cs => (digits? cs).map (fun n => (n : Int))

/-- Warning printed by `common_words.py` line 23 when a count fails to
parse. -/
def cwWarn (w name : String) : String :=
  "Skipping invalid count for word \x27" ++ w ++ "\x27 in file " ++ name

/-- Model of `word_counts[word] += count` on a `defaultdict(int)`
(`common_words.py` line 21): add into the existing entry, or append a new
entry at the end (defaultdict insertion order is first-seen order). -/
def bump : List (String × Int) → String → Int → List (String × Int)
  | [], w, n => [(w, n)]
  | (w0, c0) :: rest, w, n =>
    if w0 = w then (w0, c0 + n) :: rest else (w0, c0) :: bump rest w n

/-- Body of the row loop in `read_csv_files` (`common_words.py` lines
16-23): a two-field row is parsed and accumulated, with a warning (and no
count change) when the count fails to parse; any other row is skipped with
no effect at all.  The state is the pair of accumulated counts and emitted
warnings. -/
def stepCsvRow (name : String) (acc : List (String × Int) × List String)
    (row : List String) : List (String × Int) × List String :=
  match row with
  | [word, count] =>
    match pyInt? count with
    | some n => (bump acc.1 word n, acc.2)
    | none => (acc.1, acc.2 ++ [cwWarn word name])
  | _ => acc

/-- Row loop of `read_csv_files` over the rows of one CSV file. -/
def processRows (name : String) (rows : List (List String))
    (acc : List (String × Int) × List String) : List (String × Int) × List String :=
  rows.foldl (stepCsvRow name) acc

/-- Shallow embedding of `read_csv_files` (`common_words.py` lines 6-25):
fold the row loop over every CSV file of the folder, starting from the empty
defaultdict.  The folder listing is modelled as the list of (file name, rows)
pairs. -/
def read_csv_files (files : List (String × List (List String))) :
    List (String × Int) × List String :=
  files.foldl (fun acc f => processRows f.1 f.2 acc) ([], [])

/-- Total count accumulated for word `w` in the association list. -/
def countOf (counts : List (String × Int)) (w : String) : Int :=
  ((counts.filter (fun p => p.1 == w)).map Prod.snd).sum

/-- Contribution of one CSV row to the total of word `w`: its count when the
row is a well-formed two-field row for `w` with a parsable count, else 0. -/
def rowVal (w : String) (row : List String) : Int :=
  match row with
  | [word, count] =>
    match pyInt? count with
    | some n => if word = w then n else 0
    | none => 0
  | _ => 0

/-- Sum of the contributions of every row of every file to word `w`. -/
def totalVal (files : List (String × List (List String))) (w : String) : Int :=
  (files.map (fun f => ((f.2.map (rowVal w)).sum))).sum

/-- Rows of `rows` whose Chapter cell equals `key`, in input order. -/
def chRows (rows : List Row) (key : String) : List Row :=
  rows.filter (fun r => r.chapter == key)

/-- Specification of a chapter accumulator built from the rows `rs` (in
arrival order): scene numbers are `1..rs.length` and every per-scene list is
the projection of `rs`. -/
def aggOk (cd : ChapterData) (rs : List Row) : Prop :=
  cd.scenes = List.range' 1 rs.length ∧
  cd.scene_counter = rs.length + 1 ∧
  cd.day = rs.map Row.day ∧
  cd.settings = rs.map Row.location ∧
  cd.uniform = rs.map Row.uniform ∧
  cd.weather = rs.map Row.weather ∧
  cd.time = rs.map Row.time ∧
  cd.descriptions = rs.map Row.description ∧
  cd.week = rs.map Row.week

/-- Invariant of the chapter map during the row loop of `parse_scenes`:
keys are distinct, every present chapter satisfies `aggOk` for the rows
seen so far with its key (given by `m`), and absent chapters have seen no
rows. -/
def ParseInv (m : String → List Row) (ch : ChMap) : Prop :=
  (ch.map Prod.fst).Nodup ∧
  (∀ key cd, lookupChapter ch key = some cd → aggOk cd (m key)) ∧
  (∀ key, lookupChapter ch key = none → m key = [])

/-- Sample input row used by concrete witness instantiations. -/
def sampleRow : Row :=
  { week := "W1", arc := "A1", chapter := "1", location := "Hall",
    uniform := "U1", time := "T1", weather := "Sunny", day := "Mon",
    description := "Intro", pov := "Ann", temperature := "Mild" }

/-- Input row of the worked example of claim C4. -/
def c4row : Row :=
  { week := "W", arc := "A", chapter := "1", location := "Forest - Clearing, River",
    uniform := "U", time := "T", weather := "R", day := "D",
    description := "Desc", pov := "P", temperature := "C" }

/-- Expected scene section (for scene number `n`) in the worked example of
claim C4. -/
def c4block (n : String) : String :=
  "### Scene " ++ n ++
    "\n\n - POV: P\n - Date and Time: T\n - Day: D\n - Week: W\n - Temperature: C\n - Weather: R\n - Uniform: U\n\n - Description: Desc\n\n #### Setting:\n - Forest\n     - Clearing\n     - River\n\n"

/-- Write-failure oracle under which no write raises. -/
def noFail : String → Bool := fun _ => false

/-- Empty initial filesystem state. -/
def fs0 : FS := { dirs := [], files := [] }

/-- Zero-scene chapter accumulator used by the claim C6 witness. -/
def c6cd : ChapterData :=
  { scenes := [], settings := [], scene_counter := 1, day := [], POV := "P",
    description := "", time := [], weather := [], descriptions := [],
    uniform := [], arc := "A", week := [], temperature := "T" }

/-- Raw row whose Week cell access raises, used by the claim C7 witness. -/
def badRaw : RawRow :=
  { week := none, arc := some "A", chapter := some "1", location := some "L",
    uniform := some "U", time := some "T", weather := some "W", day := some "D",
    description := some "X", pov := some "P", temperature := some "C" }

/-- Second sample row carrying chapter key 2, used by the claim C8 witness. -/
def otherRow : Row :=
  { week := "W2", arc := "A2", chapter := "2", location := "Lake",
    uniform := "U2", time := "T2", weather := "Rain", day := "Tue",
    description := "Next", pov := "Bob", temperature := "Cold" }

/-- Reconstructing a string from its character data is the identity. -/
theorem stringMkData (s : String) : String.mk s.data = s := by
  cases s
  rfl

/-- Appending the empty string on the left is the identity. -/
theorem strEmptyAppend (s : String) : "" ++ s = s := by
  cases s
  rfl

/-- Appending the empty string on the right is the identity. -/
theorem strAppendEmpty (s : String) : s ++ "" = s := by
  cases s with
  | mk d => exact congrArg String.mk (List.append_nil d)

/-- String append is associative. -/
theorem strAppendAssoc (a b c : String) : a ++ b ++ c = a ++ (b ++ c) := by
  cases a with
  | mk x =>
    cases b with
    | mk y =>
      cases c with
      | mk z => exact congrArg String.mk (List.append_assoc x y z)

/-- Character data of an appended string. -/
theorem strDataAppend (a b : String) : (a ++ b).data = a.data ++ b.data := by
  cases a
  cases b
  rfl

/-- Joining a one-element list of strings gives that string. -/
theorem strJoinSingleton (s : String) : String.join [s] = s :=
  strEmptyAppend s

/-- Replacing the value at key `k` leaves lookups at other keys unchanged. -/
theorem lookupChapter_set_ne (k key : String) (v : ChapterData) (h : key ≠ k) :
    ∀ ch : ChMap, lookupChapter (setChapter ch k v) key = lookupChapter ch key := by
  intro ch
  induction ch with
  | nil => rfl
  | cons p rest ih =>
    obtain ⟨k0, v0⟩ := p
    simp only [setChapter]
    by_cases hk : k0 = k
    · subst hk
      simp only [if_pos rfl, lookupChapter, if_neg h]
      exact ih
    · simp only [if_neg hk, lookupChapter]
      by_cases hkey : key = k0
      · simp [hkey]
      · simp [hkey, ih]

/-- Replacing the value at a present key makes lookup return the new value. -/
theorem lookupChapter_set_eq (k : String) (v : ChapterData) :
    ∀ ch : ChMap, (lookupChapter ch k).isSome → lookupChapter (setChapter ch k v) k = some v := by
  intro ch
  induction ch with
  | nil => intro h; simp [lookupChapter] at h
  | cons p rest ih =>
    obtain ⟨k0, v0⟩ := p
    intro h
    simp only [setChapter]
    by_cases hk : k0 = k
    · subst hk
      simp [lookupChapter]
    · have hk' : k ≠ k0 := fun hh => hk hh.symm
      simp only [if_neg hk, lookupChapter, if_neg hk']
      apply ih
      simpa [lookupChapter, if_neg hk'] using h

/-- Replacing a value does not change the key list. -/
theorem keys_setChapter (k : String) (v : ChapterData) :
    ∀ ch : ChMap, (setChapter ch k v).map Prod.fst = ch.map Prod.fst := by
  intro ch
  induction ch with
  | nil => rfl
  | cons p rest ih =>
    obtain ⟨k0, v0⟩ := p
    by_cases hk : k0 = k <;> simp [setChapter, hk, ih]

/-- Lookup in an extended map still finds values present on the left. -/
theorem lookupChapter_append_some {ch : ChMap} {key : String} {cd : ChapterData}
    (tail : ChMap) (h : lookupChapter ch key = some cd) :
    lookupChapter (ch ++ tail) key = some cd := by
  induction ch with
  | nil => simp [lookupChapter] at h
  | cons p rest ih =>
    obtain ⟨k0, v0⟩ := p
    by_cases hk : key = k0
    · simp only [lookupChapter, if_pos hk] at h
      simp [lookupChapter, hk, h]
    · simp only [lookupChapter, if_neg hk] at h
      simpa [lookupChapter, hk] using ih h

/-- Lookup in an extended map falls through to the right part when the key is
absent on the left. -/
theorem lookupChapter_append_none {ch : ChMap} {key : String}
    (tail : ChMap) (h : lookupChapter ch key = none) :
    lookupChapter (ch ++ tail) key = lookupChapter tail key := by
  induction ch with
  | nil => rfl
  | cons p rest ih =>
    obtain ⟨k0, v0⟩ := p
    by_cases hk : key = k0
    · simp [lookupChapter, hk] at h
    · simp only [lookupChapter, if_neg hk] at h
      simpa [lookupChapter, hk] using ih h

/-- Lookup fails exactly when the key is not in the key list. -/
theorem lookupChapter_eq_none_iff (ch : ChMap) (key : String) :
    lookupChapter ch key = none ↔ key ∉ ch.map Prod.fst := by
  induction ch with
  | nil => simp [lookupChapter]
  | cons p rest ih =>
    obtain ⟨k0, v0⟩ := p
    by_cases hk : key = k0 <;> simp [lookupChapter, hk, ih]

/-- A successful lookup means the key is in the key list. -/
theorem lookupChapter_mem_of_some {ch : ChMap} {key : String} {cd : ChapterData}
    (h : lookupChapter ch key = some cd) : key ∈ ch.map Prod.fst := by
  by_contra hn
  rw [(lookupChapter_eq_none_iff ch key).mpr hn] at h
  cases h

/-- With distinct keys, membership of a pair determines the lookup result. -/
theorem lookupChapter_of_mem :
    ∀ (ch : ChMap) (k : String) (cd : ChapterData),
      (ch.map Prod.fst).Nodup → (k, cd) ∈ ch → lookupChapter ch k = some cd := by
  intro ch
  induction ch with
  | nil => intro k cd _ h; simp at h
  | cons p rest ih =>
    intro k cd hnd hmem
    obtain ⟨k0, v0⟩ := p
    have hnd' : k0 ∉ rest.map Prod.fst ∧ (rest.map Prod.fst).Nodup := by
      rw [List.map_cons] at hnd
      exact List.nodup_cons.mp hnd
    rcases List.mem_cons.mp hmem with heq | hmem'
    · injection heq with h1 h2
      subst h1
      subst h2
      simp [lookupChapter]
    · have hk : k ≠ k0 := by
        intro hkk
        subst hkk
        exact hnd'.1 (List.mem_map.mpr ⟨(k, cd), hmem', rfl⟩)
      simp only [lookupChapter, if_neg hk]
      exact ih k cd hnd'.2 hmem'

/-- Filtering a cons by chapter key splits into the head contribution and
the tail. -/
theorem chRows_cons (r : Row) (rows : List Row) (key : String) :
    chRows (r :: rows) key =
      (if r.chapter = key then [r] else []) ++ chRows rows key := by
  by_cases h : r.chapter = key <;> simp [chRows, List.filter_cons, h]

/-- The fresh accumulator satisfies the aggregation specification for the
empty row list. -/
theorem aggOk_init : aggOk initChapter [] := by
  refine ⟨rfl, rfl, rfl, rfl, rfl, rfl, rfl, rfl, rfl⟩

/-- One row-loop update extends the aggregation specification by one row. -/
theorem aggOk_update {cd : ChapterData} {rs : List Row} (row : Row) (h : aggOk cd rs) :
    aggOk (updateChapter cd row) (rs ++ [row]) := by
  obtain ⟨h1, h2, h3, h4, h5, h6, h7, h8, h9⟩ := h
  refine ⟨?_, ?_, ?_, ?_, ?_, ?_, ?_, ?_, ?_⟩
  · show cd.scenes ++ [cd.scene_counter] = List.range' 1 (rs ++ [row]).length
    rw [h1, h2]
    simp [List.range'_concat, Nat.add_comm]
  · show cd.scene_counter + 1 = (rs ++ [row]).length + 1
    simp [h2]
  · show cd.day ++ [row.day] = (rs ++ [row]).map Row.day
    rw [h3]
    simp
  · show cd.settings ++ [row.location] = (rs ++ [row]).map Row.location
    rw [h4]
    simp
  · show cd.uniform ++ [row.uniform] = (rs ++ [row]).map Row.uniform
    rw [h5]
    simp
  · show cd.weather ++ [row.weather] = (rs ++ [row]).map Row.weather
    rw [h6]
    simp
  · show cd.time ++ [row.time] = (rs ++ [row]).map Row.time
    rw [h7]
    simp
  · show cd.descriptions ++ [row.description] = (rs ++ [row]).map Row.description
    rw [h8]
    simp
  · show cd.week ++ [row.week] = (rs ++ [row]).map Row.week
    rw [h9]
    simp

/-- The single-row charge to chapter `key` is `[row]` for the row's own
chapter and empty otherwise. -/
theorem chRows_single_eq (row : Row) (key : String) (h : row.chapter = key) :
    chRows [row] key = [row] := by
  simp [chRows, h]

/-- The single-row charge to any other chapter key is empty. -/
theorem chRows_single_ne (row : Row) (key : String) (h : key ≠ row.chapter) :
    chRows [row] key = [] := by
  simp [chRows]
  intro hc
  exact absurd hc.symm h

/-- One iteration of the row loop preserves the parse invariant, charging
the consumed row to its chapter key. -/
theorem stepRow_inv {m : String → List Row} {ch : ChMap} (row : Row)
    (h : ParseInv m ch) :
    ParseInv (fun key => m key ++ chRows [row] key) (stepRow ch row) := by
  obtain ⟨hnd, hsome, hnone⟩ := h
  cases hl : lookupChapter ch row.chapter with
  | some cd =>
    have hstep : stepRow ch row = setChapter ch row.chapter (updateChapter cd row) := by
      unfold stepRow
      rw [hl]
    rw [hstep]
    refine ⟨?_, ?_, ?_⟩
    · simpa [keys_setChapter] using hnd
    · intro key cd' hcd'
      show aggOk cd' (m key ++ chRows [row] key)
      by_cases hk : key = row.chapter
      · rw [hk] at hcd'
        rw [lookupChapter_set_eq row.chapter (updateChapter cd row) ch (by rw [hl]; rfl)] at hcd'
        injection hcd' with hcd''
        rw [chRows_single_eq row key hk.symm, ← hcd'', hk]
        exact aggOk_update row (hsome _ _ hl)
      · rw [lookupChapter_set_ne _ _ _ hk] at hcd'
        rw [chRows_single_ne row key hk, List.append_nil]
        exact hsome _ _ hcd'
    · intro key hkey
      show m key ++ chRows [row] key = []
      by_cases hk : key = row.chapter
      · rw [hk] at hkey
        rw [lookupChapter_set_eq row.chapter (updateChapter cd row) ch (by rw [hl]; rfl)] at hkey
        cases hkey
      · rw [lookupChapter_set_ne _ _ _ hk] at hkey
        rw [chRows_single_ne row key hk, List.append_nil]
        exact hnone _ hkey
  | none =>
    have hout : row.chapter ∉ ch.map Prod.fst := (lookupChapter_eq_none_iff ch _).mp hl
    have hstep : stepRow ch row = ch ++ [(row.chapter, updateChapter initChapter row)] := by
      unfold stepRow
      rw [hl]
    rw [hstep]
    refine ⟨?_, ?_, ?_⟩
    · rw [List.map_append, List.nodup_append]
      refine ⟨hnd, by simp, ?_⟩
      intro a ha hb
      simp at hb
      subst hb
      exact hout ha
    · intro key cd' hcd'
      show aggOk cd' (m key ++ chRows [row] key)
      by_cases hk : key = row.chapter
      · rw [hk] at hcd'
        rw [lookupChapter_append_none _ hl] at hcd'
        have hcd'' : updateChapter initChapter row = cd' := by
          simpa [lookupChapter] using hcd'
        rw [chRows_single_eq row key hk.symm, hk, hnone _ hl, ← hcd'']
        exact aggOk_update row aggOk_init
      · rw [chRows_single_ne row key hk, List.append_nil]
        cases hck : lookupChapter ch key with
        | some cd0 =>
          rw [lookupChapter_append_some _ hck] at hcd'
          injection hcd' with hcd''
          rw [← hcd'']
          exact hsome _ _ hck
        | none =>
          rw [lookupChapter_append_none _ hck] at hcd'
          simp [lookupChapter, if_neg hk] at hcd'
    · intro key hkey
      show m key ++ chRows [row] key = []
      by_cases hk : key = row.chapter
      · rw [hk] at hkey
        rw [lookupChapter_append_none _ hl] at hkey
        simp [lookupChapter] at hkey
      · rw [chRows_single_ne row key hk, List.append_nil]
        apply hnone
        cases hck : lookupChapter ch key with
        | some cd0 => rw [lookupChapter_append_some _ hck] at hkey; cases hkey
        | none => rfl

/-- Folding the row loop over any row list preserves the parse invariant,
charging every consumed row to its chapter key. -/
theorem parseInv_foldl :
    ∀ (rows : List Row) (m : String → List Row) (ch : ChMap),
      ParseInv m ch →
      ParseInv (fun key => m key ++ chRows rows key) (rows.foldl stepRow ch) := by
  intro rows
  induction rows with
  | nil =>
    intro m ch h
    refine ⟨h.1, ?_, ?_⟩
    · intro key cd hcd
      show aggOk cd (m key ++ chRows [] key)
      simpa [chRows] using h.2.1 key cd hcd
    · intro key hkey
      show m key ++ chRows [] key = []
      simpa [chRows] using h.2.2 key hkey
  | cons r rest ih =>
    intro m ch h
    have h2 := ih _ _ (stepRow_inv r h)
    refine ⟨h2.1, ?_, ?_⟩
    · intro key cd hcd
      have h3 : aggOk cd ((m key ++ chRows [r] key) ++ chRows rest key) := h2.2.1 key cd hcd
      show aggOk cd (m key ++ chRows (r :: rest) key)
      rw [chRows_cons, ← List.append_assoc]
      by_cases hc : r.chapter = key
      · rw [chRows_single_eq r key hc] at h3
        rw [if_pos hc]
        exact h3
      · rw [chRows_single_ne r key (fun hh => hc hh.symm)] at h3
        rw [if_neg hc]
        exact h3
    · intro key hkey
      have h3 : (m key ++ chRows [r] key) ++ chRows rest key = [] := h2.2.2 key hkey
      show m key ++ chRows (r :: rest) key = []
      rw [chRows_cons, ← List.append_assoc]
      by_cases hc : r.chapter = key
      · rw [chRows_single_eq r key hc] at h3
        rw [if_pos hc]
        exact h3
      · rw [chRows_single_ne r key (fun hh => hc hh.symm)] at h3
        rw [if_neg hc]
        exact h3

theorem parse_scenes_agg (rows : List Row) :
    ParseInv (fun key => chRows rows key) (parse_scenes rows) := by
  have base : ParseInv (fun _ => []) ([] : ChMap) := by
    refine ⟨List.nodup_nil, ?_, fun _ _ => rfl⟩
    intro key cd h
    simp [lookupChapter] at h
  exact parseInv_foldl rows (fun _ => []) [] base

/-- When every per-scene list has at least `n` entries, the first `n` scene
sections render successfully, in order, and the section at index `i` carries
the heading `### Scene (i+1)`. -/
theorem renderBlocks_ok (cd : ChapterData) :
    ∀ n : Nat, n ≤ cd.time.length → n ≤ cd.day.length → n ≤ cd.week.length →
      n ≤ cd.weather.length → n ≤ cd.uniform.length → n ≤ cd.descriptions.length →
      n ≤ cd.settings.length →
      ∃ bs : List String, renderBlocks cd n = some bs ∧ bs.length = n ∧
        ∀ i : Nat, i < n → ∃ r : String,
          bs.get? i = some ("### Scene " ++ Nat.repr (i + 1) ++ "\n\n" ++ r) := by
  intro n
  induction n with
  | zero =>
    intro _ _ _ _ _ _ _
    exact ⟨[], rfl, rfl, fun i hi => absurd hi (by omega)⟩
  | succ n ih =>
    intro ht hd hw hwe hu hde hs
    obtain ⟨bs, hbs, hlen, hget⟩ := ih (Nat.le_of_succ_le ht) (Nat.le_of_succ_le hd)
      (Nat.le_of_succ_le hw) (Nat.le_of_succ_le hwe) (Nat.le_of_succ_le hu)
      (Nat.le_of_succ_le hde) (Nat.le_of_succ_le hs)
    have hsc : renderSceneAt cd n = some (sceneText cd.POV cd.temperature (n + 1)
        (cd.time.get ⟨n, ht⟩) (cd.day.get ⟨n, hd⟩) (cd.week.get ⟨n, hw⟩)
        (cd.weather.get ⟨n, hwe⟩) (cd.uniform.get ⟨n, hu⟩)
        (cd.descriptions.get ⟨n, hde⟩) (cd.settings.get ⟨n, hs⟩)) := by
      unfold renderSceneAt
      rw [List.get?_eq_get ht, List.get?_eq_get hd, List.get?_eq_get hw,
        List.get?_eq_get hwe, List.get?_eq_get hu, List.get?_eq_get hde,
        List.get?_eq_get hs]
    refine ⟨bs ++ [sceneText cd.POV cd.temperature (n + 1)
        (cd.time.get ⟨n, ht⟩) (cd.day.get ⟨n, hd⟩) (cd.week.get ⟨n, hw⟩)
        (cd.weather.get ⟨n, hwe⟩) (cd.uniform.get ⟨n, hu⟩)
        (cd.descriptions.get ⟨n, hde⟩) (cd.settings.get ⟨n, hs⟩)], ?_, ?_, ?_⟩
    · show renderBlocks cd (n + 1) = _
      unfold renderBlocks
      rw [hbs, hsc]
    · simp [hlen]
    · intro i hi
      by_cases hcase : i < n
      · rw [List.get?_append (by omega)]
        exact hget i hcase
      · have hi' : i = bs.length := by omega
        subst hi'
        rw [List.get?_concat_length, hlen]
        exact ⟨sceneDetails cd.POV cd.temperature
          (cd.time.get ⟨n, ht⟩) (cd.day.get ⟨n, hd⟩) (cd.week.get ⟨n, hw⟩)
          (cd.weather.get ⟨n, hwe⟩) (cd.uniform.get ⟨n, hu⟩)
          (cd.descriptions.get ⟨n, hde⟩) (cd.settings.get ⟨n, hs⟩), rfl⟩

/-- A chapter accumulator satisfying the aggregation specification renders
its scene loop successfully, producing one section per aggregated row with
headings numbered from 1 in row-arrival order. -/
theorem renderScenes_of_agg {cd : ChapterData} {rs : List Row} (h : aggOk cd rs) :
    ∃ bs : List String, renderBlocks cd cd.scenes.length = some bs ∧
      bs.length = rs.length ∧
      ∀ i : Nat, i < rs.length → ∃ r : String,
        bs.get? i = some ("### Scene " ++ Nat.repr (i + 1) ++ "\n\n" ++ r) := by
  obtain ⟨h1, h2, h3, h4, h5, h6, h7, h8, h9⟩ := h
  have hsl : cd.scenes.length = rs.length := by simp [h1]
  rw [hsl]
  exact renderBlocks_ok cd rs.length (by simp [h7]) (by simp [h3]) (by simp [h9])
    (by simp [h6]) (by simp [h5]) (by simp [h8]) (by simp [h4])

/-- Claim C1: for every chapter whose aggregate was built from N input rows,
the document rendered by `generate_markdown_content` for that chapter
contains exactly N scene sections, with scene headings numbered 1..N in the
order the rows arrived in the input. -/
theorem c1_scene_sections (rows : List Row) (key : String) (cd : ChapterData)
    (tags : List String) (now : String) (am : Bool)
    (h : lookupChapter (parse_scenes rows) key = some cd) :
    ∃ bs : List String,
      generateChapterContent key cd tags now am =
        some ((if am then add_metadata "" cd.arc cd.POV (String.intercalate ", " tags) now else "") ++
          "# Chapter " ++ key ++ "\n" ++ "## Scenes\n" ++ String.join bs) ∧
      bs.length = (chRows rows key).length ∧
      ∀ i : Nat, i < bs.length → ∃ r : String,
        bs.get? i = some ("### Scene " ++ Nat.repr (i + 1) ++ "\n\n" ++ r) := by
  have hagg := (parse_scenes_agg rows).2.1 key cd h
  obtain ⟨bs, hbs, hlen, hget⟩ := renderScenes_of_agg hagg
  refine ⟨bs, ?_, hlen, ?_⟩
  · unfold generateChapterContent renderScenes
    rw [hbs]
  · intro i hi
    exact hget i (hlen ▸ hi)

/-- Claim C1 witness: one row with chapter key 1 renders one scene section
headed by Scene 1. -/
theorem c1_witness :
    ∃ bs : List String,
      generateChapterContent "1" (updateChapter initChapter sampleRow) [] "" false =
        some ((if false then add_metadata "" (updateChapter initChapter sampleRow).arc
            (updateChapter initChapter sampleRow).POV (String.intercalate ", " []) "" else "") ++
          "# Chapter " ++ "1" ++ "\n" ++ "## Scenes\n" ++ String.join bs) ∧
      bs.length = (chRows [sampleRow] "1").length ∧
      ∀ i : Nat, i < bs.length → ∃ r : String,
        bs.get? i = some ("### Scene " ++ Nat.repr (i + 1) ++ "\n\n" ++ r) :=
  c1_scene_sections [sampleRow] "1" (updateChapter initChapter sampleRow) [] "" false rfl

/-- Claim C2: after `parse_scenes` consumes any prefix of the input rows,
every chapter's per-scene sequences day, settings, uniform, weather, time,
descriptions, scenes and week all have length equal to the number of rows
seen so far with that chapter key. -/
theorem c2_parallel_lengths (rows : List Row) (k : Nat) (key : String) (cd : ChapterData)
    (h : lookupChapter (parse_scenes (List.take k rows)) key = some cd) :
    cd.day.length = (chRows (List.take k rows) key).length ∧
    cd.settings.length = (chRows (List.take k rows) key).length ∧
    cd.uniform.length = (chRows (List.take k rows) key).length ∧
    cd.weather.length = (chRows (List.take k rows) key).length ∧
    cd.time.length = (chRows (List.take k rows) key).length ∧
    cd.descriptions.length = (chRows (List.take k rows) key).length ∧
    cd.scenes.length = (chRows (List.take k rows) key).length ∧
    cd.week.length = (chRows (List.take k rows) key).length := by
  obtain ⟨h1, h2, h3, h4, h5, h6, h7, h8, h9⟩ :=
    (parse_scenes_agg (List.take k rows)).2.1 key cd h
  exact ⟨by simp [h3], by simp [h4], by simp [h5], by simp [h6], by simp [h7],
    by simp [h8], by simp [h1], by simp [h9]⟩

/-- Claim C2 witness: after consuming the one-row prefix of a one-row input,
chapter 1 has all eight sequences of length one. -/
theorem c2_witness :
    lookupChapter (parse_scenes (List.take 1 [sampleRow])) "1"
        = some (updateChapter initChapter sampleRow) ∧
    ((updateChapter initChapter sampleRow).day.length = 1 ∧
      (updateChapter initChapter sampleRow).settings.length = 1 ∧
      (updateChapter initChapter sampleRow).uniform.length = 1 ∧
      (updateChapter initChapter sampleRow).weather.length = 1 ∧
      (updateChapter initChapter sampleRow).time.length = 1 ∧
      (updateChapter initChapter sampleRow).descriptions.length = 1 ∧
      (updateChapter initChapter sampleRow).scenes.length = 1 ∧
      (updateChapter initChapter sampleRow).week.length = 1) :=
  ⟨rfl, c2_parallel_lengths [sampleRow] 1 "1" (updateChapter initChapter sampleRow) rfl⟩

/-- When the separator never occurs, the split worker returns the whole
remaining input appended to the accumulated piece. -/
theorem splitGo_no_occur (sep : List Char) :
    ∀ (cs : List Char) (fuel : Nat) (cur : List Char), cs.length ≤ fuel →
      occurs sep cs = false → splitGo sep fuel cs cur = [cur.reverse ++ cs] := by
  intro cs
  induction cs with
  | nil =>
    intro fuel cur _ _
    cases fuel <;> simp [splitGo]
  | cons c rest ih =>
    intro fuel cur hf ho
    cases fuel with
    | zero =>
      exact absurd hf (by simp)
    | succ f =>
      have ho2 := ho
      rw [occurs, Bool.or_eq_false_iff] at ho2
      rw [splitGo, ho2.1]
      simp only [Bool.false_and, Bool.false_eq_true, if_false]
      rw [ih f (c :: cur) (by simpa using Nat.succ_le_succ_iff.mp hf) ho2.2]
      simp

/-- When the separator does not occur in the string, Python split returns
the one-element list holding the whole string. -/
theorem pySplit_no_occur (s sep : String) (h : occurs sep.data s.data = false) :
    pySplit s sep = [s] := by
  unfold pySplit
  rw [splitGo_no_occur sep.data s.data s.data.length [] (Nat.le_refl _) h]
  simp [stringMkData]

/-- Claim C3 counterexample: the location string `A. B` contains neither
`" - "` nor `", "`, yet its setting block consists of two top-level bullets
rather than the single bullet holding the whole string. -/
theorem c3_counterexample :
    occurs " - ".data "A. B".data = false ∧
    occurs ", ".data "A. B".data = false ∧
    renderSetting "A. B" = " - A\n" ++ " - B\n" ∧
    renderSetting "A. B" ≠ " - " ++ "A. B" ++ "\n" := by
  exact ⟨by decide, by decide, by decide, by decide⟩

/-- Claim C3 (amended): for every location string that contains none of the
substrings `" - "`, `", "` and `". "`, the setting block rendered for a
scene with that location is exactly one top-level bullet holding the whole
string, with no sub-bullets. -/
theorem c3_amended (loc : String)
    (h1 : occurs " - ".data loc.data = false)
    (h2 : occurs ", ".data loc.data = false)
    (h3 : occurs ". ".data loc.data = false) :
    renderSetting loc = " - " ++ loc ++ "\n" := by
  unfold renderSetting
  rw [pySplit_no_occur loc ". " h3]
  rw [List.map_cons, List.map_nil, strJoinSingleton]
  unfold renderSettingPart
  rw [pySplit_no_occur loc " - " h1]
  simp only [List.map_nil, String.join]
  exact strAppendEmpty _

/-- Claim C3 witness: the separator-free location `Forest` renders as the
single bullet holding it. -/
theorem c3_witness :
    occurs " - ".data "Forest".data = false ∧
    occurs ", ".data "Forest".data = false ∧
    occurs ". ".data "Forest".data = false ∧
    renderSetting "Forest" = " - " ++ "Forest" ++ "\n" :=
  ⟨by decide, by decide, by decide,
    c3_amended "Forest" (by decide) (by decide) (by decide)⟩

set_option maxRecDepth 20000 in
/-- Claim C4: three rows with chapter 1 and location
`Forest - Clearing, River` produce exactly one document, whose scene
sections are numbered 1, 2, 3 and whose setting block is one `Forest`
bullet with the sub-bullets `Clearing` then `River`. -/
theorem c4_example :
    (generate_markdown_content noFail (parse_scenes [c4row, c4row, c4row]) [] "plan" "" false fs0).1.files
      = [("./plan/Chapter 1.md",
          "# Chapter 1\n" ++ "## Scenes\n" ++ c4block "1" ++ c4block "2" ++ c4block "3")] ∧
    (generate_markdown_content noFail (parse_scenes [c4row, c4row, c4row]) [] "plan" "" false fs0).2
      = ["Chapter 1"] ∧
    renderSetting "Forest - Clearing, River" =
      " - Forest\n" ++ "     - Clearing\n" ++ "     - River\n" := by
  exact ⟨by decide, by decide, by decide⟩

/-- Every chapter produced by `parse_scenes` renders to some document
content (its scene loop raises no index error). -/
theorem mem_parse_scenes_render (rows : List Row) (tags : List String)
    (now : String) (am : Bool) :
    ∀ p ∈ parse_scenes rows, ∃ d, generateChapterContent p.1 p.2 tags now am = some d := by
  intro p hp
  obtain ⟨k, cd⟩ := p
  have hnd := (parse_scenes_agg rows).1
  have hlk := lookupChapter_of_mem _ _ _ hnd hp
  have hagg := (parse_scenes_agg rows).2.1 k cd hlk
  obtain ⟨bs, hbs, _, _⟩ := renderScenes_of_agg hagg
  refine ⟨(if am then add_metadata "" cd.arc cd.POV (String.intercalate ", " tags) now else "") ++
    "# Chapter " ++ k ++ "\n" ++ "## Scenes\n" ++ String.join bs, ?_⟩
  show generateChapterContent k cd tags now am = _
  unfold generateChapterContent renderScenes
  rw [hbs]

/-- When every chapter renders, the chapter loop makes exactly one
`write_markdown` call per chapter, in map order. -/
theorem generateLoop_calls (wf : String → Bool) (tags : List String)
    (dir now : String) (am : Bool) :
    ∀ (chapters : ChMap) (fs : FS),
      (∀ p ∈ chapters, ∃ d, generateChapterContent p.1 p.2 tags now am = some d) →
      (generateLoop wf tags dir now am chapters fs).2
        = chapters.map (fun p => "Chapter " ++ p.1) := by
  intro chapters
  induction chapters with
  | nil => intro fs _; rfl
  | cons p rest ih =>
    intro fs hall
    obtain ⟨k, cd⟩ := p
    obtain ⟨d, hd⟩ := hall (k, cd) (List.mem_cons_self _ _)
    simp only [generateLoop, hd, List.map_cons]
    rw [ih _ (fun q hq => hall q (List.mem_cons_of_mem _ hq))]

/-- A key is in the chapter map after a row-loop step exactly when it was
already present or is the consumed row's chapter. -/
theorem keys_stepRow (ch : ChMap) (r : Row) (key : String) :
    key ∈ (stepRow ch r).map Prod.fst ↔ key ∈ ch.map Prod.fst ∨ key = r.chapter := by
  unfold stepRow
  cases hl : lookupChapter ch r.chapter with
  | some cd =>
    rw [keys_setChapter]
    constructor
    · exact Or.inl
    · rintro (h | h)
      · exact h
      · subst h
        exact lookupChapter_mem_of_some hl
  | none => simp [List.map_append]

/-- A key is a chapter of the parse result exactly when some input row
carries it. -/
theorem keys_parse_mem (rows : List Row) (key : String) :
    key ∈ (parse_scenes rows).map Prod.fst ↔ ∃ r ∈ rows, r.chapter = key := by
  have main : ∀ (rows : List Row) (ch : ChMap),
      key ∈ (rows.foldl stepRow ch).map Prod.fst ↔
        key ∈ ch.map Prod.fst ∨ ∃ r ∈ rows, r.chapter = key := by
    intro rows
    induction rows with
    | nil => intro ch; simp
    | cons r rest ih =>
      intro ch
      rw [List.foldl_cons, ih, keys_stepRow]
      constructor
      · rintro ((h | h) | h)
        · exact Or.inl h
        · exact Or.inr ⟨r, List.mem_cons_self _ _, h.symm⟩
        · obtain ⟨r', hr', hrk⟩ := h
          exact Or.inr ⟨r', List.mem_cons_of_mem _ hr', hrk⟩
      · rintro (h | ⟨r', hr', hrk⟩)
        · exact Or.inl (Or.inl h)
        · rcases List.mem_cons.mp hr' with h1 | h1
          · subst h1
            exact Or.inl (Or.inr hrk.symm)
          · exact Or.inr ⟨r', h1, hrk⟩
  have := main rows []
  simpa [parse_scenes] using this

/-- Claim C5: for every input row sequence, the number of markdown documents
written (one `write_markdown` call per chapter) equals the number of
distinct chapter key values occurring in the input rows. -/
theorem c5_doc_count (rows : List Row) (wf : String → Bool) (tags : List String)
    (dir now : String) (am : Bool) (fs : FS) :
    (generate_markdown_content wf (parse_scenes rows) tags dir now am fs).2.length
      = (rows.map Row.chapter).dedup.length := by
  unfold generate_markdown_content
  rw [generateLoop_calls wf tags dir now am (parse_scenes rows) fs
    (mem_parse_scenes_render rows tags now am)]
  rw [List.length_map]
  have hnd := (parse_scenes_agg rows).1
  have hlen : (parse_scenes rows).length = ((parse_scenes rows).map Prod.fst).length := by
    simp
  rw [hlen]
  have h1 : ((parse_scenes rows).map Prod.fst).toFinset.card
      = ((parse_scenes rows).map Prod.fst).length :=
    List.toFinset_card_of_nodup hnd
  have h2 : ((parse_scenes rows).map Prod.fst).toFinset
      = (rows.map Row.chapter).toFinset := by
    apply Finset.ext
    intro a
    simp only [List.mem_toFinset]
    rw [keys_parse_mem]
    simp [List.mem_map]
  rw [← h1, h2, List.card_toFinset]

/-- Claim C6: the generated chapter document begins with a metadata block if
and only if metadata emission is requested, and the block carries the tag
list joined with comma-and-space verbatim on its `tags:` line. -/
theorem c6_metadata_iff (key : String) (cd : ChapterData) (tags : List String)
    (now : String) (am : Bool) (doc : String)
    (h : generateChapterContent key cd tags now am = some doc) :
    (∃ rest, doc =
        "---\n" ++ "created: " ++ now ++ "\n" ++ "generated_by: excel_to_markdown.py\n" ++
        "tags: " ++ String.intercalate ", " tags ++ "\n" ++ "POV: " ++ cd.POV ++ "\n" ++
        "Arc: " ++ cd.arc ++ "\n" ++ "---\n\n" ++ rest) ↔ am = true := by
  obtain ⟨body, hdoc⟩ : ∃ body,
      doc = (if am then add_metadata "" cd.arc cd.POV (String.intercalate ", " tags) now else "") ++
        "# Chapter " ++ key ++ "\n" ++ "## Scenes\n" ++ body := by
    unfold generateChapterContent at h
    cases hr : renderScenes cd with
    | none => rw [hr] at h; cases h
    | some b =>
      rw [hr] at h
      injection h with h'
      exact ⟨b, h'.symm⟩
  cases am with
  | true =>
    simp only [if_pos] at hdoc
    constructor
    · intro _
      rfl
    · intro _
      refine ⟨"# Chapter " ++ key ++ "\n" ++ "## Scenes\n" ++ body, ?_⟩
      rw [hdoc]
      simp [add_metadata, strAppendAssoc, strEmptyAppend]
      rw [show ("\n---\n\n# Chapter " : String) = "\n---\n\n" ++ "# Chapter " from rfl,
        strAppendAssoc]
  | false =>
    simp only [Bool.false_eq_true, if_false] at hdoc
    constructor
    · rintro ⟨rest, hr⟩
      exfalso
      rw [hdoc, strEmptyAppend] at hr
      have hA : ∀ (k b : String),
          ("# Chapter " ++ k ++ "\n" ++ "## Scenes\n" ++ b).data.head? = some '#' := by
        intro k b
        cases k
        cases b
        rfl
      have hB : ∀ (v1 v2 v3 v4 v5 : String),
          ("---\n" ++ "created: " ++ v1 ++ "\n" ++ "generated_by: excel_to_markdown.py\n" ++
            "tags: " ++ v2 ++ "\n" ++ "POV: " ++ v3 ++ "\n" ++ "Arc: " ++ v4 ++ "\n" ++
            "---\n\n" ++ v5).data.head? = some '-' := by
        intro v1 v2 v3 v4 v5
        cases v1
        cases v2
        cases v3
        cases v4
        cases v5
        rfl
      have hc : ("# Chapter " ++ key ++ "\n" ++ "## Scenes\n" ++ body).data.head?
          = ("---\n" ++ "created: " ++ now ++ "\n" ++ "generated_by: excel_to_markdown.py\n" ++
             "tags: " ++ String.intercalate ", " tags ++ "\n" ++ "POV: " ++ cd.POV ++ "\n" ++
             "Arc: " ++ cd.arc ++ "\n" ++ "---\n\n" ++ rest).data.head? :=
        congrArg (fun s => s.data.head?) hr
      rw [hA key body, hB now (String.intercalate ", " tags) cd.POV cd.arc rest] at hc
      simp at hc
    · intro hfalse
      cases hfalse

/-- Claim C6 witness: with metadata requested, the rendered document starts
with the metadata block carrying the joined tag list. -/
theorem c6_witness :
    (∃ rest,
        ("---\ncreated: NOW\ngenerated_by: excel_to_markdown.py\ntags: alpha, beta\nPOV: P\nArc: A\n---\n\n# Chapter 1\n## Scenes\n" : String) =
          "---\n" ++ "created: " ++ "NOW" ++ "\n" ++ "generated_by: excel_to_markdown.py\n" ++
          "tags: " ++ String.intercalate ", " ["alpha", "beta"] ++ "\n" ++ "POV: " ++ c6cd.POV ++ "\n" ++
          "Arc: " ++ c6cd.arc ++ "\n" ++ "---\n\n" ++ rest) ↔ true = true :=
  c6_metadata_iff "1" c6cd ["alpha", "beta"] "NOW" true
    "---\ncreated: NOW\ngenerated_by: excel_to_markdown.py\ntags: alpha, beta\nPOV: P\nArc: A\n---\n\n# Chapter 1\n## Scenes\n"
    rfl

/-- When some row of the input raises during aggregation, the row loop of
`parse_scenes` aborts with `None`. -/
theorem parseRaw_none :
    ∀ (rows : List RawRow) (ch : ChMap),
      (∃ r ∈ rows, readRow? r = none) → parseRaw rows ch = none := by
  intro rows
  induction rows with
  | nil =>
    intro ch h
    obtain ⟨r, hr, _⟩ := h
    simp at hr
  | cons r0 rest ih =>
    intro ch h
    obtain ⟨r, hr, hnone⟩ := h
    cases hrr : readRow? r0 with
    | none => simp [parseRaw, hrr]
    | some row =>
      rcases List.mem_cons.mp hr with h1 | h1
      · subst h1
        rw [hrr] at hnone
        cases hnone
      · simp only [parseRaw, hrr]
        exact ih _ ⟨r, h1, hnone⟩

/-- Claim C7: if any exception is raised while aggregating any row, the run
is fatal: no directory is created, no `write_markdown` call is made and no
document is written for any chapter, including chapters aggregated before
the fault. -/
theorem c7_fatal_aggregation (rows : List RawRow) (wf : String → Bool)
    (tags : List String) (dir now : String) (am : Bool) (fs : FS) (r : RawRow)
    (hmem : r ∈ rows) (hbad : readRow? r = none) :
    runPipeline wf rows tags dir now am fs = (fs, []) := by
  unfold runPipeline parse_scenes_raw
  rw [parseRaw_none rows [] ⟨r, hmem, hbad⟩]

/-- Claim C7 witness: a run whose only row raises writes nothing and leaves
the filesystem untouched. -/
theorem c7_witness :
    badRaw ∈ [badRaw] ∧ readRow? badRaw = none ∧
    runPipeline noFail [badRaw] [] "plan" "" false fs0 = (fs0, []) :=
  ⟨List.mem_singleton_self _, rfl,
    c7_fatal_aggregation [badRaw] noFail [] "plan" "" false fs0 badRaw
      (List.mem_singleton_self _) rfl⟩

/-- Files already on disk survive a `write_markdown` call. -/
theorem write_markdown_files_mono (wf : String → Bool) (fp dir content : String)
    (fs : FS) (x : String × String) (h : x ∈ fs.files) :
    x ∈ (write_markdown wf fp dir content fs).files := by
  unfold write_markdown
  by_cases hd : dir ∈ fs.dirs <;> by_cases hw : wf fp <;> simp [hd, hw, h]

/-- After a `write_markdown` call the output directory exists. -/
theorem write_markdown_dirs (wf : String → Bool) (fp dir content : String) (fs : FS) :
    dir ∈ (write_markdown wf fp dir content fs).dirs := by
  unfold write_markdown
  by_cases hd : dir ∈ fs.dirs <;> by_cases hw : wf fp <;> simp [hd, hw]

/-- Existing directories survive a `write_markdown` call. -/
theorem write_markdown_dirs_mono (wf : String → Bool) (fp dir content d : String)
    (fs : FS) (h : d ∈ fs.dirs) : d ∈ (write_markdown wf fp dir content fs).dirs := by
  unfold write_markdown
  by_cases hd : dir ∈ fs.dirs <;> by_cases hw : wf fp <;> simp [hd, hw, h]

/-- When its own write does not raise, `write_markdown` writes the file. -/
theorem write_markdown_writes (wf : String → Bool) (fp dir content : String)
    (fs : FS) (h : wf fp = false) :
    ("./" ++ dir ++ "/" ++ fp ++ ".md", content) ∈ (write_markdown wf fp dir content fs).files := by
  unfold write_markdown
  by_cases hd : dir ∈ fs.dirs <;> simp [hd, h]

/-- Files already on disk survive the whole chapter loop. -/
theorem generateLoop_files_mono (wf : String → Bool) (tags : List String)
    (dir now : String) (am : Bool) :
    ∀ (chapters : ChMap) (fs : FS) (x : String × String), x ∈ fs.files →
      x ∈ (generateLoop wf tags dir now am chapters fs).1.files := by
  intro chapters
  induction chapters with
  | nil => intro fs x h; exact h
  | cons p rest ih =>
    intro fs x h
    obtain ⟨k, cd⟩ := p
    cases hc : generateChapterContent k cd tags now am with
    | none => simpa [generateLoop, hc] using h
    | some content =>
      simp only [generateLoop, hc]
      exact ih _ _ (write_markdown_files_mono _ _ _ _ _ _ h)

/-- Existing directories survive the whole chapter loop. -/
theorem generateLoop_dirs_mono (wf : String → Bool) (tags : List String)
    (dir now : String) (am : Bool) :
    ∀ (chapters : ChMap) (fs : FS) (d : String), d ∈ fs.dirs →
      d ∈ (generateLoop wf tags dir now am chapters fs).1.dirs := by
  intro chapters
  induction chapters with
  | nil => intro fs d h; exact h
  | cons p rest ih =>
    intro fs d h
    obtain ⟨k, cd⟩ := p
    cases hc : generateChapterContent k cd tags now am with
    | none => simpa [generateLoop, hc] using h
    | some content =>
      simp only [generateLoop, hc]
      exact ih _ _ (write_markdown_dirs_mono _ _ _ _ _ _ h)

/-- In a chapter loop where every chapter renders, a chapter whose own
write does not raise gets its file written, whatever the write oracle does
to the other chapters, and the output directory exists afterwards. -/
theorem generateLoop_isolated (wf : String → Bool) (tags : List String)
    (dir now : String) (am : Bool) :
    ∀ (chapters : ChMap) (fs : FS) (key : String) (cd : ChapterData),
      (∀ p ∈ chapters, ∃ d, generateChapterContent p.1 p.2 tags now am = some d) →
      (key, cd) ∈ chapters → wf ("Chapter " ++ key) = false →
      (∃ content, ("./" ++ dir ++ "/" ++ ("Chapter " ++ key) ++ ".md", content) ∈
          (generateLoop wf tags dir now am chapters fs).1.files) ∧
      dir ∈ (generateLoop wf tags dir now am chapters fs).1.dirs := by
  intro chapters
  induction chapters with
  | nil =>
    intro fs key cd _ hmem _
    simp at hmem
  | cons p rest ih =>
    intro fs key cd hall hmem hwf
    obtain ⟨k0, cd0⟩ := p
    obtain ⟨d0, hd0⟩ := hall (k0, cd0) (List.mem_cons_self _ _)
    simp only [generateLoop, hd0]
    rcases List.mem_cons.mp hmem with h1 | h1
    · injection h1 with hk hcd
      subst hk
      constructor
      · exact ⟨d0, generateLoop_files_mono _ _ _ _ _ rest _ _
          (write_markdown_writes wf ("Chapter " ++ key) dir d0 fs hwf)⟩
      · exact generateLoop_dirs_mono _ _ _ _ _ rest _ _
          (write_markdown_dirs wf ("Chapter " ++ key) dir d0 fs)
    · exact ih (write_markdown wf ("Chapter " ++ k0) dir d0 fs) key cd
        (fun q hq => hall q (List.mem_cons_of_mem _ hq)) h1 hwf

/-- Claim C8: a write failure for one chapter is caught inside
`write_markdown` and does not prevent the remaining chapters from being
rendered and written; the destination directory is created if absent. -/
theorem c8_write_isolation (rows : List Row) (wf : String → Bool)
    (tags : List String) (dir now : String) (am : Bool) (fs : FS)
    (key : String) (cd : ChapterData)
    (hmem : (key, cd) ∈ parse_scenes rows)
    (hwf : wf ("Chapter " ++ key) = false) :
    (∃ content, ("./" ++ dir ++ "/" ++ ("Chapter " ++ key) ++ ".md", content) ∈
        (generate_markdown_content wf (parse_scenes rows) tags dir now am fs).1.files) ∧
    dir ∈ (generate_markdown_content wf (parse_scenes rows) tags dir now am fs).1.dirs :=
  generateLoop_isolated wf tags dir now am (parse_scenes rows) fs key cd
    (mem_parse_scenes_render rows tags now am) hmem hwf

set_option maxRecDepth 20000 in
/-- Claim C8 witness: with a write oracle that fails exactly on chapter 1,
chapter 2 is still written and the output directory exists. -/
theorem c8_witness :
    (fun s => s == "Chapter 1") ("Chapter " ++ "2") = false ∧
    (∃ content, ("./" ++ "plan" ++ "/" ++ ("Chapter " ++ "2") ++ ".md", content) ∈
        (generate_markdown_content (fun s => s == "Chapter 1")
          (parse_scenes [sampleRow, otherRow]) [] "plan" "" false fs0).1.files) ∧
    "plan" ∈ (generate_markdown_content (fun s => s == "Chapter 1")
        (parse_scenes [sampleRow, otherRow]) [] "plan" "" false fs0).1.dirs :=
  ⟨rfl,
    (c8_write_isolation [sampleRow, otherRow] (fun s => s == "Chapter 1") [] "plan" "" false fs0
      "2" (updateChapter initChapter otherRow) (by decide) rfl).1,
    (c8_write_isolation [sampleRow, otherRow] (fun s => s == "Chapter 1") [] "plan" "" false fs0
      "2" (updateChapter initChapter otherRow) (by decide) rfl).2⟩

/-- The counts component of one CSV row step does not depend on the
warnings accumulated so far. -/
theorem stepCsvRow_fst_warns (name : String) (c : List (String × Int))
    (w1 w2 : List String) (row : List String) :
    (stepCsvRow name (c, w1) row).1 = (stepCsvRow name (c, w2) row).1 := by
  cases row with
  | nil => rfl
  | cons a t =>
    cases t with
    | nil => rfl
    | cons b t2 =>
      cases t2 with
      | nil =>
        cases hpi : pyInt? b <;> simp [stepCsvRow, hpi]
      | cons c3 t3 => rfl

/-- The counts component of the row loop does not depend on the warnings
accumulated so far. -/
theorem processRows_fst_warns (name : String) :
    ∀ (rows : List (List String)) (c : List (String × Int)) (w1 w2 : List String),
      (processRows name rows (c, w1)).1 = (processRows name rows (c, w2)).1 := by
  intro rows
  induction rows with
  | nil => intro c w1 w2; rfl
  | cons row rest ih =>
    intro c w1 w2
    unfold processRows at *
    rw [List.foldl_cons, List.foldl_cons]
    have h1 := stepCsvRow_fst_warns name c w1 w2 row
    have e1 : stepCsvRow name (c, w1) row
        = ((stepCsvRow name (c, w2) row).1, (stepCsvRow name (c, w1) row).2) := by
      rw [← h1]
    rw [e1]
    have h2 := ih ((stepCsvRow name (c, w2) row).1)
      ((stepCsvRow name (c, w1) row).2) ((stepCsvRow name (c, w2) row).2)
    rw [Prod.mk.eta] at h2
    exact h2

/-- The counts component of the file loop does not depend on the warnings
accumulated so far. -/
theorem foldFiles_fst_warns :
    ∀ (files : List (String × List (List String))) (c : List (String × Int))
      (w1 w2 : List String),
      (files.foldl (fun acc f => processRows f.1 f.2 acc) (c, w1)).1 =
        (files.foldl (fun acc f => processRows f.1 f.2 acc) (c, w2)).1 := by
  intro files
  induction files with
  | nil => intro c w1 w2; rfl
  | cons f rest ih =>
    intro c w1 w2
    rw [List.foldl_cons, List.foldl_cons]
    have h1 := processRows_fst_warns f.1 f.2 c w1 w2
    have e1 : processRows f.1 f.2 (c, w1)
        = ((processRows f.1 f.2 (c, w2)).1, (processRows f.1 f.2 (c, w1)).2) := by
      rw [← h1]
    rw [e1]
    have h2 := ih ((processRows f.1 f.2 (c, w2)).1)
      ((processRows f.1 f.2 (c, w1)).2) ((processRows f.1 f.2 (c, w2)).2)
    rw [Prod.mk.eta] at h2
    exact h2

/-- The counts component of the file loop depends only on the counts
component of the starting state. -/
theorem foldFiles_fst_congr (files : List (String × List (List String)))
    (A B : List (String × Int) × List String) (h : A.1 = B.1) :
    (files.foldl (fun acc f => processRows f.1 f.2 acc) A).1 =
      (files.foldl (fun acc f => processRows f.1 f.2 acc) B).1 := by
  have hA : A = (A.1, A.2) := Prod.mk.eta.symm
  have hB : B = (B.1, B.2) := Prod.mk.eta.symm
  rw [hA, hB, h]
  exact foldFiles_fst_warns files B.1 A.2 B.2

/-- Claim C9: a two-field CSV row whose count does not parse as an integer
is skipped with its logged warning, leaves the accumulated counts unchanged
and does not abort processing of the subsequent rows and files. -/
theorem c9_invalid_count (name w s : String) (post : List (List String))
    (counts : List (String × Int)) (warns : List String)
    (files : List (String × List (List String)))
    (h : pyInt? s = none) :
    processRows name ([w, s] :: post) (counts, warns)
      = processRows name post (counts, warns ++ [cwWarn w name]) ∧
    (read_csv_files ((name, [w, s] :: post) :: files)).1
      = (read_csv_files ((name, post) :: files)).1 := by
  constructor
  · unfold processRows
    rw [List.foldl_cons]
    simp [stepCsvRow, h]
  · unfold read_csv_files
    rw [List.foldl_cons, List.foldl_cons]
    apply foldFiles_fst_congr
    show (processRows name ([w, s] :: post) ([], [])).1 = (processRows name post ([], [])).1
    have h1 : processRows name ([w, s] :: post) (([] : List (String × Int)), ([] : List String))
        = processRows name post ([], [cwWarn w name]) := by
      unfold processRows
      rw [List.foldl_cons]
      simp [stepCsvRow, h]
    rw [h1]
    exact processRows_fst_warns name post [] [cwWarn w name] []

/-- Claim C9 witness: the row `the, oops` is skipped with its warning and
the accumulated counts are unaffected. -/
theorem c9_witness :
    pyInt? "oops" = none ∧
    processRows "f.csv" [["the", "oops"]] ([("a", 2)], [])
      = processRows "f.csv" [] ([("a", 2)], [] ++ [cwWarn "the" "f.csv"]) ∧
    (read_csv_files [("f.csv", [["the", "oops"]])]).1
      = (read_csv_files [("f.csv", [])]).1 :=
  ⟨rfl,
    (c9_invalid_count "f.csv" "the" "oops" [] [("a", 2)] [] [] rfl).1,
    (c9_invalid_count "f.csv" "the" "oops" [] [("a", 2)] [] [] rfl).2⟩

/-- Accumulating a count into the defaultdict adds it to the chosen word
and leaves every other word's total unchanged. -/
theorem countOf_bump (w0 : String) (n : Int) (w : String) :
    ∀ counts : List (String × Int),
      countOf (bump counts w0 n) w = countOf counts w + (if w0 = w then n else 0) := by
  intro counts
  induction counts with
  | nil =>
    by_cases h : w0 = w <;> simp [bump, countOf, List.filter_cons, h]
  | cons p rest ih =>
    obtain ⟨w1, c1⟩ := p
    by_cases h1 : w1 = w0
    · subst h1
      by_cases h2 : w1 = w <;>
        simp [bump, countOf, List.filter_cons, h2, Int.add_assoc, Int.add_comm,
          Int.add_left_comm]
    · have hb : bump ((w1, c1) :: rest) w0 n = (w1, c1) :: bump rest w0 n := by
        simp [bump, h1]
      rw [hb]
      by_cases h2 : w1 = w
      · have h4 : ¬w0 = w := fun hh => h1 (h2.trans hh.symm)
        simp only [countOf] at ih ⊢
        simp [List.filter_cons, h2, ih, h4]
      · simp only [countOf] at ih ⊢
        simp [List.filter_cons, h2, ih]

/-- One CSV row step changes the total of word `w` by exactly the row's
contribution. -/
theorem stepCsvRow_counts (name : String) (acc : List (String × Int) × List String)
    (row : List String) (w : String) :
    countOf (stepCsvRow name acc row).1 w = countOf acc.1 w + rowVal w row := by
  cases row with
  | nil => simp [stepCsvRow, rowVal]
  | cons a t =>
    cases t with
    | nil => simp [stepCsvRow, rowVal]
    | cons b t2 =>
      cases t2 with
      | nil =>
        cases hpi : pyInt? b with
        | none => simp [stepCsvRow, rowVal, hpi]
        | some n => simp [stepCsvRow, rowVal, hpi, countOf_bump]
      | cons c3 t3 => simp [stepCsvRow, rowVal]

/-- The row loop changes the total of word `w` by the sum of the rows'
contributions. -/
theorem processRows_counts (name : String) :
    ∀ (rows : List (List String)) (acc : List (String × Int) × List String) (w : String),
      countOf (processRows name rows acc).1 w
        = countOf acc.1 w + (rows.map (rowVal w)).sum := by
  intro rows
  induction rows with
  | nil => intro acc w; simp [processRows]
  | cons row rest ih =>
    intro acc w
    unfold processRows at *
    rw [List.foldl_cons, List.map_cons, List.sum_cons]
    rw [ih (stepCsvRow name acc row) w, stepCsvRow_counts]
    ring

/-- The file loop changes the total of word `w` by the sum of all files'
contributions. -/
theorem foldFiles_counts :
    ∀ (files : List (String × List (List String)))
      (acc : List (String × Int) × List String) (w : String),
      countOf (files.foldl (fun acc f => processRows f.1 f.2 acc) acc).1 w
        = countOf acc.1 w + totalVal files w := by
  intro files
  induction files with
  | nil => intro acc w; simp [totalVal]
  | cons f rest ih =>
    intro acc w
    rw [List.foldl_cons, ih, processRows_counts]
    unfold totalVal
    rw [List.map_cons, List.sum_cons]
    ring

/-- Claim C10: a CSV row whose field count is not exactly two is silently
ignored, with no warning and no change to the accumulated state, so the
final mapping assigns every word the sum of the parsable counts of its
well-formed two-field rows. -/
theorem c10_silent_skip :
    (∀ (name : String) (row : List String) (rows : List (List String))
        (acc : List (String × Int) × List String),
      row.length ≠ 2 → processRows name (row :: rows) acc = processRows name rows acc) ∧
    (∀ (files : List (String × List (List String))) (w : String),
      countOf (read_csv_files files).1 w = totalVal files w) := by
  constructor
  · intro name row rows acc hlen
    unfold processRows
    rw [List.foldl_cons]
    have hstep : stepCsvRow name acc row = acc := by
      cases row with
      | nil => rfl
      | cons a t =>
        cases t with
        | nil => rfl
        | cons b t2 =>
          cases t2 with
          | nil => exact absurd rfl hlen
          | cons c3 t3 => rfl
    rw [hstep]
  · intro files w
    unfold read_csv_files
    rw [foldFiles_counts]
    simp [countOf]

/-- Claim C10 witness: a three-field row is dropped with no effect, and the
final count of the word `x` is the grouped sum of its parsable rows. -/
theorem c10_witness :
    (["a", "b", "c"] : List String).length ≠ 2 ∧
    processRows "g.csv" [["a", "b", "c"], ["x", "4"]] ([], [])
      = processRows "g.csv" [["x", "4"]] ([], []) ∧
    countOf (read_csv_files [("g.csv", [["x", "4"], ["x", "1"], ["y", "zzz"], ["bad"]])]).1 "x"
      = totalVal [("g.csv", [["x", "4"], ["x", "1"], ["y", "zzz"], ["bad"]])] "x" :=
  ⟨by decide,
    c10_silent_skip.1 "g.csv" ["a", "b", "c"] [["x", "4"]] ([], []) (by decide),
    c10_silent_skip.2 [("g.csv", [["x", "4"], ["x", "1"], ["y", "zzz"], ["bad"]])] "x"⟩
